import Mathlib

/-!
Verification of the finite-MDP simulator (`finite_mdp/envs/finite_mdp.py`).

The embedding mirrors the Python source:
* `Model` embeds the `MDP` object hierarchy: `kind` records which class was
  instantiated (`DeterministicMDP` or `StochasticMDP`), `transition` is the
  stored table (2-d next-state table for the deterministic variant, 3-d
  probability table for the stochastic one), `reward` is the S x A reward
  table and `terminal` the length-S terminal vector.  Numbers are rationals.
* numpy's random generator is embedded as `RNG`: a bundle of drawing
  functions together with the contracts numpy guarantees for them
  (`np_random.choice(range(n), size=(S,A))` yields an S x A table of values
  below `n`; `np_random.rand` yields uniforms in `[0,1)`).
  `np.random.choice(arange(S), p=probs)` is embedded by inverse-CDF sampling
  `categoricalSample probs u` on a uniform draw `u` in `[0,1)`, which is how
  numpy implements it (searchsorted of the cumulative sums, side right).
* Python dict configurations become `Config`, with `Option` recording key
  presence.  Out-of-range indexing raises `IndexError` in the source; the
  embedding uses `getD` defaults there and every theorem that touches an
  index carries the corresponding in-range hypothesis, so the defaults are
  never relied upon.
-/

/-- A stored transition table: the deterministic variant holds an S x A
next-state table, the stochastic variant an S x A x S probability table. -/
inductive TransTable where
  | det : List (List Nat) → TransTable
  | stoch : List (List (List ℚ)) → TransTable
deriving DecidableEq, Repr

/-- Which Python class the model object is an instance of. -/
inductive MKind where
  | det
  | stoch
deriving DecidableEq, Repr

/-- Size of the first axis of the stored transition table
(`np.shape(transition)[0]`). -/
def TransTable.numStates : TransTable → Nat
  | .det t => t.length
  | .stoch t => t.length

/-- The MDP model object: current state plus the three tables
(`MDP.__init__` fields, lines 10-14 and 44-55 of the source). -/
structure Model where
  kind : MKind
  state : Nat
  transition : TransTable
  reward : List (List ℚ)
  terminal : List ℚ
deriving DecidableEq, Repr

/-- Shared constructor logic of `DeterministicMDP.__init__` /
`StochasticMDP.__init__` (lines 44-55): state starts at 0 and an absent or
empty terminal vector is replaced by `np.zeros(np.shape(transition)[0])`. -/
def mkModel (kind : MKind) (transition : TransTable) (reward : List (List ℚ))
    (terminal : List ℚ) : Model :=
  { kind := kind, state := 0, transition := transition, reward := reward,
    terminal := if terminal.isEmpty
      then List.replicate transition.numStates 0 else terminal }

/-- A configuration dict (section 6 of the spec): `Option` encodes key
presence, `config.get(key, default)` becomes `Option.getD`. -/
structure Config where
  mode : Option String
  transition : Option TransTable
  reward : Option (List (List ℚ))
  terminal : Option (List ℚ)
  random : Option Bool
deriving DecidableEq, Repr

/-- `np.random.choice(np.arange(n), p=probs)` as inverse-CDF sampling on a
uniform draw `u`: the first index whose cumulative probability exceeds `u`
(searchsorted of the cumulative sums, side right). -/
def categoricalSample : List ℚ → ℚ → Nat
  | [], _ => 0
  | p :: rest, u => if u < p then 0 else categoricalSample rest (u - p) + 1

/-- numpy's random generator, embedded as its drawing functions together
with the contracts numpy documents for them. -/
structure RNG where
  choice2 : Nat → Nat → Nat → List (List Nat)
  rand2 : Nat → Nat → List (List ℚ)
  rand3 : Nat → Nat → Nat → List (List (List ℚ))
  choice2_len : ∀ n S A, (choice2 n S A).length = S
  choice2_rows : ∀ n S A, ∀ row ∈ choice2 n S A, row.length = A
  choice2_mem : ∀ n S A, 0 < n → ∀ row ∈ choice2 n S A, ∀ x ∈ row, x < n
  rand2_len : ∀ S A, (rand2 S A).length = S
  rand2_rows : ∀ S A, ∀ row ∈ rand2 S A, row.length = A
  rand2_mem : ∀ S A, ∀ row ∈ rand2 S A, ∀ x ∈ row, 0 ≤ x ∧ x < 1
  rand3_len : ∀ S A B, (rand3 S A B).length = S
  rand3_rows : ∀ S A B, ∀ row ∈ rand3 S A B, row.length = A
  rand3_inner : ∀ S A B, ∀ row ∈ rand3 S A B, ∀ cell ∈ row, cell.length = B
  rand3_mem : ∀ S A B, ∀ row ∈ rand3 S A B, ∀ cell ∈ row, ∀ x ∈ cell,
    0 ≤ x ∧ x < 1

/-- `MDP.reset` (lines 19-21): state back to 0, returned. -/
def Model.reset (m : Model) : Nat × Model :=
  (0, { m with state := 0 })

/-- `DeterministicMDP.step` (lines 57-61) and `StochasticMDP.step`
(lines 93-98), dispatched on the instantiated class.  Reward and the done
flag are read at the pre-transition state; then the state moves, by table
lookup in the deterministic variant and by a categorical draw from the
stored row in the stochastic one.  `u` is the uniform draw consumed by the
stochastic variant; the deterministic variant ignores it.  The fourth
component is the post-step model (the source returns its `to_config`
snapshot).  A class/table shape mismatch is outside the source's contract;
those branches return junk that no theorem relies on. -/
def Model.step (m : Model) (action : Nat) (u : ℚ) : Nat × ℚ × Bool × Model :=
  match m.kind with
  | .det =>
    let reward := (m.reward.getD m.state []).getD action 0
    let done := decide ((m.terminal.getD m.state 0) ≠ 0)
    let s := match m.transition with
      | .det t => (t.getD m.state []).getD action 0
      | .stoch _ => 0
    (s, reward, done, { m with state := s })
  | .stoch =>
    let reward := (m.reward.getD m.state []).getD action 0
    let probs := match m.transition with
      | .stoch t => (t.getD m.state []).getD action []
      | .det _ => []
    let done := decide ((m.terminal.getD m.state 0) ≠ 0)
    let s := categoricalSample probs u
    (s, reward, done, { m with state := s })

/-- `DeterministicMDP.randomize` (lines 63-65) and
`StochasticMDP.randomize` (lines 109-111): the transition table is redrawn
(`choice(range(S), size=np.shape(transition))` resp.
`rand(*np.shape(transition))`) and the reward table is redrawn with
`rand(*np.shape(reward))`.  Shapes of nested lists are read off as numpy
does for rectangular arrays: length of the axis, length of the first
element for the next axis. -/
def Model.randomize (m : Model) (rng : RNG) : Model :=
  match m.kind, m.transition with
  | .det, .det t =>
    { m with
      transition := .det (rng.choice2 t.length t.length (t.headD []).length),
      reward := rng.rand2 m.reward.length (m.reward.headD []).length }
  | .stoch, .stoch t =>
    { m with
      transition := .stoch (rng.rand3 t.length (t.headD []).length
        ((t.headD []).headD []).length),
      reward := rng.rand2 m.reward.length (m.reward.headD []).length }
  | _, _ => m

/-- The mode tag each variant's `to_config` emits. -/
def MKind.tag : MKind → String
  | .det => "deterministic"
  | .stoch => "stochastic"

/-- `DeterministicMDP.to_config` (lines 67-73) and
`StochasticMDP.to_config` (lines 113-116): mode tag of the instantiated
class plus the three tables; no `random` key is ever emitted. -/
def Model.to_config (m : Model) : Config :=
  { mode := some m.kind.tag,
    transition := some m.transition,
    reward := some m.reward,
    terminal := some m.terminal,
    random := none }

/-- `DeterministicMDP.update` (lines 75-81), inherited by the stochastic
variant: each of the three table keys present in the supplied configuration
replaces the stored table; absent keys leave it untouched. -/
def Model.update (m : Model) (c : Config) : Model :=
  let m1 := match c.transition with
    | some t => { m with transition := t }
    | none => m
  let m2 := match c.reward with
    | some r => { m1 with reward := r }
    | none => m1
  match c.terminal with
  | some t => { m2 with terminal := t }
  | none => m2

/-- `MDP.from_config` (lines 23-37): an if-elif-else chain on the `mode`
key, raising `ValueError("Unknown MDP mode in configuration")` when it is
absent or unrecognized; then, when the `random` flag is present and truthy,
the freshly built model is randomized before being returned. -/
def MDP.from_config (c : Config) (rng : RNG) : Except String Model :=
  if c.mode = some "deterministic" then
    let mdp := mkModel .det (c.transition.getD (.det []))
      (c.reward.getD []) (c.terminal.getD [])
    Except.ok (if c.random.getD false then mdp.randomize rng else mdp)
  else if c.mode = some "stochastic" then
    let mdp := mkModel .stoch (c.transition.getD (.det []))
      (c.reward.getD []) (c.terminal.getD [])
    Except.ok (if c.random.getD false then mdp.randomize rng else mdp)
  else
    Except.error "Unknown MDP mode in configuration"

/-- `StochasticMDP.from_deterministic` (lines 100-107): a one-hot S x A x S
table (zeros with a 1 written at the deterministic target), with reward and
terminal passed to the `StochasticMDP` constructor. -/
def StochasticMDP.from_deterministic (m : Model) : Model :=
  match m.transition with
  | .det t =>
    mkModel .stoch
      (.stoch ((List.range t.length).map fun s =>
        (List.range (t.headD []).length).map fun a =>
          (List.replicate t.length (0 : ℚ)).set ((t.getD s []).getD a 0) 1))
      m.reward m.terminal
  | .stoch _ => m

/-- `FiniteMDP.MAX_STEPS` (line 120). -/
def FiniteMDP.MAX_STEPS : Nat := 10

/-- The `FiniteMDP` gym environment (lines 119-162), stripped of the
out-of-scope gym plumbing: the stored configuration, the owned model and
the step counter. -/
structure FiniteMDPEnv where
  config : Config
  mdp : Model
  steps : Nat
deriving DecidableEq, Repr

/-- `FiniteMDP.reset` (lines 154-156): counter to 0, model reset. -/
def FiniteMDPEnv.reset (env : FiniteMDPEnv) : Nat × FiniteMDPEnv :=
  ((env.mdp.reset).1, { env with steps := 0, mdp := (env.mdp.reset).2 })

/-- `FiniteMDP.step` (lines 158-162): delegate to the model, override done
with `done or self.steps > MAX_STEPS` (pre-increment counter), then
increment the counter. -/
def FiniteMDPEnv.step (env : FiniteMDPEnv) (action : Nat) (u : ℚ) :
    Nat × ℚ × Bool × FiniteMDPEnv :=
  let r := env.mdp.step action u
  (r.1, r.2.1, r.2.2.1 || decide (env.steps > FiniteMDP.MAX_STEPS),
    { env with mdp := r.2.2.2, steps := env.steps + 1 })

/-- `FiniteMDP.copy_with_config` (lines 143-147): deep copy (value
semantics here), stored configuration replaced wholesale, the supplied
configuration applied to the copy's model as a partial update. -/
def FiniteMDPEnv.copy_with_config (env : FiniteMDPEnv) (c : Config) :
    FiniteMDPEnv :=
  { env with config := c, mdp := env.mdp.update c }

/-- The done flags of a sequence of consecutive `FiniteMDP.step` calls,
each call fed its action and its uniform draw. -/
def dones : FiniteMDPEnv → List (Nat × ℚ) → List Bool
  | _, [] => []
  | env, au :: rest =>
    (env.step au.1 au.2).2.2.1 :: dones (env.step au.1 au.2).2.2.2 rest

/-- A concrete random source satisfying the numpy contracts: categorical
draws all land on index 0, uniform draws are all 1/2. -/
def constRNG : RNG where
  choice2 := fun _ S A => List.replicate S (List.replicate A 0)
  rand2 := fun S A => List.replicate S (List.replicate A (1 / 2))
  rand3 := fun S A B => List.replicate S (List.replicate A
    (List.replicate B (1 / 2)))
  choice2_len := by intro n S A; simp
  choice2_rows := by
    intro n S A row hrow
    rw [List.eq_of_mem_replicate hrow]; simp
  choice2_mem := by
    intro n S A hn row hrow x hx
    rw [List.eq_of_mem_replicate hrow] at hx
    rw [List.eq_of_mem_replicate hx]; exact hn
  rand2_len := by intro S A; simp
  rand2_rows := by
    intro S A row hrow
    rw [List.eq_of_mem_replicate hrow]; simp
  rand2_mem := by
    intro S A row hrow x hx
    rw [List.eq_of_mem_replicate hrow] at hx
    rw [List.eq_of_mem_replicate hx]
    constructor <;> norm_num
  rand3_len := by intro S A B; simp
  rand3_rows := by
    intro S A B row hrow
    rw [List.eq_of_mem_replicate hrow]; simp
  rand3_inner := by
    intro S A B row hrow cell hcell
    rw [List.eq_of_mem_replicate hrow] at hcell
    rw [List.eq_of_mem_replicate hcell]; simp
  rand3_mem := by
    intro S A B row hrow cell hcell x hx
    rw [List.eq_of_mem_replicate hrow] at hcell
    rw [List.eq_of_mem_replicate hcell] at hx
    rw [List.eq_of_mem_replicate hx]
    constructor <;> norm_num

/-- The concrete scenario model of spec section 8.6: `S=2, A=1`,
deterministic `transition=[[1],[0]]`, `reward=[[5],[1]]`,
`terminal=[0,1]`. -/
def scenarioModel : Model :=
  mkModel .det (.det [[1], [0]]) [[5], [1]] [0, 1]

/-- A concrete environment whose model never reports a terminal state:
one state, one action, self-loop, zero reward, defaulted (all-zero)
terminal vector. -/
def loopEnv : FiniteMDPEnv :=
  { config := { mode := some "deterministic",
                transition := some (.det [[0]]),
                reward := some [[0]],
                terminal := none, random := none },
    mdp := mkModel .det (.det [[0]]) [[0]] [],
    steps := 0 }

/-- A configuration carrying all four table keys and a truthy `random`
flag. -/
def randomTrueConfig : Config :=
  { mode := some "deterministic",
    transition := some (.det [[1], [0]]),
    reward := some [[5], [1]],
    terminal := some [0, 1],
    random := some true }

/-- The model `from_config randomTrueConfig constRNG` builds: the freshly
constructed tables are overwritten by the randomize call the truthy
`random` flag triggers. -/
def randomizedModel : Model :=
  { kind := .det, state := 0, transition := .det [[0], [0]],
    reward := [[1 / 2], [1 / 2]], terminal := [0, 1] }

/-! ## Helper lemmas -/

theorem Model.step_terminal_eq (m : Model) (a : Nat) (u : ℚ) :
    ((m.step a u).2.2.2).terminal = m.terminal := by
  rcases m with ⟨k, st, tr, r, te⟩
  cases k <;> rfl

theorem Model.step_kind_eq (m : Model) (a : Nat) (u : ℚ) :
    ((m.step a u).2.2.2).kind = m.kind := by
  rcases m with ⟨k, st, tr, r, te⟩
  cases k <;> rfl

theorem Model.step_done_of_zero (m : Model) (a : Nat) (u : ℚ)
    (h : ∀ x ∈ m.terminal, x = 0) : (m.step a u).2.2.1 = false := by
  have hz : m.terminal.getD m.state 0 = 0 := by
    rcases Nat.lt_or_ge m.state m.terminal.length with h' | h'
    · rw [List.getD_eq_getElem _ _ h']
      exact h _ (List.getElem_mem h')
    · exact List.getD_eq_default _ _ h'
  rcases m with ⟨k, st, tr, r, te⟩
  cases k <;> simp_all [Model.step]

/-! ## Claim theorems -/

/-- Claim C1: for the scenario model (`S=2, A=1`, `transition=[[1],[0]]`,
`reward=[[5],[1]]`, `terminal=[0,1]`), `reset` returns 0, the first
`step(0)` returns `(1, 5, false, _)` and the second returns
`(0, 1, true, _)`; and in general a deterministic step at an in-range
state and action reads reward and terminal at the pre-transition state and
then moves to the table's target. -/
theorem C1_det_step_semantics :
    ((scenarioModel.reset).1 = 0 ∧
      ((scenarioModel.reset).2).step 0 0 =
        (1, 5, false, { scenarioModel with state := 1 }) ∧
      ({ scenarioModel with state := 1 } : Model).step 0 0 =
        (0, 1, true, { scenarioModel with state := 0 })) ∧
    ∀ (st : Nat) (t : List (List Nat)) (r : List (List ℚ)) (term : List ℚ)
      (a : Nat) (u : ℚ), st < t.length → a < (t.getD st []).length →
      (Model.mk .det st (.det t) r term).step a u =
        ((t.getD st []).getD a 0, (r.getD st []).getD a 0,
          decide ((term.getD st 0) ≠ 0),
          Model.mk .det ((t.getD st []).getD a 0) (.det t) r term) :=
  ⟨⟨rfl, by decide, by decide⟩, fun st t r term a u _ _ => rfl⟩

/-- Witness for C1 at the scenario model's first step. -/
theorem C1_det_step_semantics_witness :
    (Model.mk .det 0 (.det [[1], [0]]) [[5], [1]] [0, 1]).step 0 0 =
      (1, 5, false, Model.mk .det 1 (.det [[1], [0]]) [[5], [1]] [0, 1]) := by
  have h := C1_det_step_semantics.2 0 [[1], [0]] [[5], [1]] [0, 1] 0 0
    (by decide) (by decide)
  exact h

/-- Claim C7: the deterministic variant's step is a pure function of the
state, the tables and the action: the uniform draw (the rng) never affects
the returned tuple nor the post-step model. -/
theorem C7_det_step_pure (m : Model) (a : Nat) (u₁ u₂ : ℚ)
    (h : m.kind = .det) : m.step a u₁ = m.step a u₂ := by
  rcases m with ⟨k, st, tr, r, te⟩
  cases k
  · rfl
  · exact MKind.noConfusion h

/-- Witness for C7 at the scenario model with draws 0 and 1. -/
theorem C7_det_step_pure_witness :
    scenarioModel.step 0 0 = scenarioModel.step 0 1 :=
  C7_det_step_pure scenarioModel 0 0 1 rfl

/-- Claim C8: `update` replaces exactly the tables whose keys are present
in the partial configuration and leaves absent fields, the current state
and the variant unchanged; no shape validation is performed (it is total
and never fails). -/
theorem C8_update_frame (m : Model) (c : Config) :
    (m.update c).transition = c.transition.getD m.transition ∧
    (m.update c).reward = c.reward.getD m.reward ∧
    (m.update c).terminal = c.terminal.getD m.terminal ∧
    (m.update c).state = m.state ∧
    (m.update c).kind = m.kind := by
  rcases c with ⟨mo, tr, r, te, ra⟩
  rcases tr with _ | t <;> rcases r with _ | r <;> rcases te with _ | t2 <;>
    simp [Model.update]

/-- Claim C10: `copy_with_config` never changes the model's variant (the
`update` it applies ignores any mode key), so the copy still serializes
with the original variant's mode tag, while the copy's stored configuration
is the supplied one. -/
theorem C10_copy_keeps_variant (env : FiniteMDPEnv) (c : Config) :
    (env.copy_with_config c).mdp.kind = env.mdp.kind ∧
    (env.copy_with_config c).config = c ∧
    (env.copy_with_config c).mdp.to_config.mode = some env.mdp.kind.tag := by
  rcases c with ⟨mo, tr, r, te, ra⟩
  rcases tr with _ | t <;> rcases r with _ | r <;> rcases te with _ | t2 <;>
    simp [FiniteMDPEnv.copy_with_config, Model.update, Model.to_config]

theorem dones_aux (acts : List (Nat × ℚ)) : ∀ env : FiniteMDPEnv,
    (∀ x ∈ env.mdp.terminal, x = 0) →
    dones env acts = (List.range acts.length).map
      (fun i => decide (env.steps + i > FiniteMDP.MAX_STEPS)) := by
  induction acts with
  | nil => intro env h; rfl
  | cons au rest ih =>
    intro env h
    have hd : (env.step au.1 au.2).2.2.1 =
        decide (env.steps > FiniteMDP.MAX_STEPS) := by
      show ((env.mdp.step au.1 au.2).2.2.1 || _) = _
      rw [Model.step_done_of_zero _ _ _ h, Bool.false_or]
    have hterm : ∀ x ∈ (env.step au.1 au.2).2.2.2.mdp.terminal, x = 0 := by
      have he : (env.step au.1 au.2).2.2.2.mdp =
          (env.mdp.step au.1 au.2).2.2.2 := rfl
      rw [he, Model.step_terminal_eq]
      exact h
    have hsteps : (env.step au.1 au.2).2.2.2.steps = env.steps + 1 := rfl
    rw [dones, hd, ih _ hterm, hsteps, List.length_cons,
      List.range_succ_eq_map, List.map_cons, List.map_map]
    congr 1
    refine List.map_congr_left fun i _ => ?_
    have hadd : env.steps + 1 + i = env.steps + (i + 1) := by omega
    simp [Function.comp, hadd]

/-- Claim C2: with `MAX_STEPS = 10` and a model whose terminal vector is
all-zero, the done flag of the i-th step call after a reset (counting from
i = 0) is exactly `i > 10`: the first 11 calls report false and the 12th
reports true, the counter being incremented after the check. -/
theorem C2_episode_boundary (env : FiniteMDPEnv)
    (h : ∀ x ∈ env.mdp.terminal, x = 0) (acts : List (Nat × ℚ)) :
    dones (env.reset).2 acts = (List.range acts.length).map
      (fun i => decide (i > FiniteMDP.MAX_STEPS)) := by
  have h' : ∀ x ∈ ((env.reset).2).mdp.terminal, x = 0 := h
  have hz : ((env.reset).2).steps = 0 := rfl
  have := dones_aux acts (env.reset).2 h'
  rw [hz] at this
  simpa using this

/-- Witness for C2: twelve consecutive steps of the self-loop environment
report eleven false done flags and then a true one. -/
theorem C2_episode_boundary_witness :
    dones (loopEnv.reset).2 (List.replicate 12 (0, (0 : ℚ))) =
      [false, false, false, false, false, false, false, false, false, false,
        false, true] := by
  have h := C2_episode_boundary loopEnv (by decide) (List.replicate 12 (0, 0))
  exact h.trans (by decide)

theorem Model.randomize_kind (m : Model) (rng : RNG) :
    (m.randomize rng).kind = m.kind := by
  rcases m with ⟨k, st, tr, r, te⟩
  cases k <;> cases tr <;> rfl

theorem Model.randomize_terminal (m : Model) (rng : RNG) :
    (m.randomize rng).terminal = m.terminal := by
  rcases m with ⟨k, st, tr, r, te⟩
  cases k <;> cases tr <;> rfl

theorem from_config_terminal (c : Config) (rng : RNG) (m : Model)
    (h : MDP.from_config c rng = .ok m) :
    m.terminal = if (c.terminal.getD []).isEmpty
      then List.replicate (c.transition.getD (.det [])).numStates 0
      else c.terminal.getD [] := by
  by_cases h1 : c.mode = some "deterministic"
  · simp only [MDP.from_config, if_pos h1, Except.ok.injEq] at h
    subst h
    split
    · rw [Model.randomize_terminal]; rfl
    · rfl
  · by_cases h2 : c.mode = some "stochastic"
    · simp only [MDP.from_config, if_neg h1, if_pos h2, Except.ok.injEq] at h
      subst h
      split
      · rw [Model.randomize_terminal]; rfl
      · rfl
    · simp [MDP.from_config, h1, h2] at h

/-- Claim C5: `from_config` fails with the configuration error exactly when
the `mode` key is absent or not one of the two recognized values; for a
recognized mode it returns the matching variant (no partial model, the
result being either an error or a complete model). -/
theorem C5_from_config_error_iff (c : Config) (rng : RNG) :
    ((∃ e, MDP.from_config c rng = .error e) ↔
      ¬(c.mode = some "deterministic" ∨ c.mode = some "stochastic")) ∧
    (c.mode = some "deterministic" →
      ∃ m, MDP.from_config c rng = .ok m ∧ m.kind = .det) ∧
    (c.mode = some "stochastic" →
      ∃ m, MDP.from_config c rng = .ok m ∧ m.kind = .stoch) := by
  by_cases h1 : c.mode = some "deterministic"
  · have h2 : ¬c.mode = some "stochastic" := by rw [h1]; simp
    refine ⟨by simp [MDP.from_config, h1],
      fun _ => ⟨if c.random.getD false then
          (mkModel .det (c.transition.getD (.det []))
            (c.reward.getD []) (c.terminal.getD [])).randomize rng
        else mkModel .det (c.transition.getD (.det []))
          (c.reward.getD []) (c.terminal.getD []), ?_, ?_⟩,
      fun h => absurd h h2⟩
    · rw [MDP.from_config, if_pos h1]
    · split
      · rw [Model.randomize_kind]; rfl
      · rfl
  · by_cases h2 : c.mode = some "stochastic"
    · refine ⟨by simp [MDP.from_config, h1, h2], fun h => absurd h h1,
        fun _ => ⟨if c.random.getD false then
            (mkModel .stoch (c.transition.getD (.det []))
              (c.reward.getD []) (c.terminal.getD [])).randomize rng
          else mkModel .stoch (c.transition.getD (.det []))
            (c.reward.getD []) (c.terminal.getD []), ?_, ?_⟩⟩
      · rw [MDP.from_config, if_neg h1, if_pos h2]
      · split
        · rw [Model.randomize_kind]; rfl
        · rfl
    · refine ⟨?_, fun h => absurd h h1, fun h => absurd h h2⟩
      simp [MDP.from_config, h1, h2]

/-- Witness for C5: a config whose mode is the unrecognized string "nope"
makes `from_config` fail. -/
theorem C5_from_config_error_iff_witness :
    ∃ e, MDP.from_config
      { mode := some "nope", transition := none, reward := none,
        terminal := none, random := none } constRNG = .error e :=
  (C5_from_config_error_iff
    { mode := some "nope", transition := none, reward := none,
      terminal := none, random := none } constRNG).1.mpr (by decide)

/-- Claim C6: when the `terminal` key is absent or maps to an empty array,
the constructed model's terminal vector is all-zero with length the size of
the transition table's first axis; a non-empty supplied terminal vector is
stored as given. -/
theorem C6_terminal_default (c : Config) (rng : RNG) (m : Model)
    (h : MDP.from_config c rng = .ok m) :
    ((c.terminal = none ∨ c.terminal = some []) →
      m.terminal = List.replicate (c.transition.getD (.det [])).numStates 0) ∧
    (∀ t, c.terminal = some t → t ≠ [] →
      m.terminal = t) := by
  have hte := from_config_terminal c rng m h
  constructor
  · rintro (hc | hc) <;> rw [hc] at hte <;> simpa using hte
  · intro t hc hne
    rw [hc] at hte
    rwa [if_neg (by simpa [List.isEmpty_iff] using hne)] at hte

/-- Witness for C6: a config without a terminal key yields the all-zero
length-1 terminal vector. -/
theorem C6_terminal_default_witness :
    (mkModel .det (.det [[0]]) [[0]] []).terminal = List.replicate 1 0 :=
  (C6_terminal_default
    { mode := some "deterministic", transition := some (.det [[0]]),
      reward := some [[0]], terminal := none, random := none }
    constRNG (mkModel .det (.det [[0]]) [[0]] []) rfl).1 (Or.inl rfl)

/-- Counterexample to C3 as stated: on a valid configuration whose
`random` flag is truthy, `from_config` randomizes the freshly built model,
so serializing it back does not return the original configuration (even
with the `random` key stripped): the transition and reward tables have
been overwritten. -/
theorem C3_roundtrip_cex :
    MDP.from_config randomTrueConfig constRNG = .ok randomizedModel ∧
    randomizedModel.to_config ≠ { randomTrueConfig with random := none } :=
  ⟨rfl, by decide⟩

/-- Claim C3 (amended): for every valid configuration (recognized mode,
transition, reward and terminal keys present, terminal of length S) whose
`random` flag is absent or false, serializing the constructed model gives
back the configuration with the `random` key stripped; in particular the
emitted mode tag equals the configuration's mode for both variants. -/
theorem C3_roundtrip_amended (c : Config) (rng : RNG) (m : Model)
    (hmode : c.mode = some "deterministic" ∨ c.mode = some "stochastic")
    (tt : TransTable) (r : List (List ℚ)) (t : List ℚ)
    (htt : c.transition = some tt) (hr : c.reward = some r)
    (ht : c.terminal = some t) (hlen : t.length = tt.numStates)
    (hrand : c.random.getD false = false)
    (h : MDP.from_config c rng = .ok m) :
    m.to_config = { c with random := none } := by
  have hterm : (if t.isEmpty then List.replicate tt.numStates (0 : ℚ) else t)
      = t := by
    cases t with
    | nil =>
      simp only [List.isEmpty_nil, if_true]
      rw [List.length_nil] at hlen
      rw [← hlen]
      rfl
    | cons x l => rfl
  rcases hmode with h1 | h1
  · rw [MDP.from_config, if_pos h1, hrand] at h
    simp only [Bool.false_eq_true, if_false, Except.ok.injEq] at h
    subst h
    rcases c with ⟨mo, ctr, cr, cte, cra⟩
    simp only at htt hr ht h1
    subst htt hr ht h1
    simp only [Model.to_config, mkModel, Option.getD_some, MKind.tag,
      Config.mk.injEq, hterm]
  · rw [MDP.from_config, if_neg (by rw [h1]; simp), if_pos h1, hrand] at h
    simp only [Bool.false_eq_true, if_false, Except.ok.injEq] at h
    subst h
    rcases c with ⟨mo, ctr, cr, cte, cra⟩
    simp only at htt hr ht h1
    subst htt hr ht h1
    simp only [Model.to_config, mkModel, Option.getD_some, MKind.tag,
      Config.mk.injEq, hterm]

/-- Witness for the amended C3 at a concrete deterministic config with the
`random` key absent. -/
theorem C3_roundtrip_amended_witness :
    (mkModel .det (.det [[1], [0]]) [[5], [1]] [0, 1]).to_config =
      { mode := some "deterministic", transition := some (.det [[1], [0]]),
        reward := some [[5], [1]], terminal := some [0, 1],
        random := none } :=
  C3_roundtrip_amended
    { mode := some "deterministic", transition := some (.det [[1], [0]]),
      reward := some [[5], [1]], terminal := some [0, 1], random := none }
    constRNG (mkModel .det (.det [[1], [0]]) [[5], [1]] [0, 1])
    (Or.inl rfl) (.det [[1], [0]]) [[5], [1]] [0, 1] rfl rfl rfl
    (by decide) rfl rfl

theorem catSample_replicate_zero (k : Nat) (rest : List ℚ) (u : ℚ)
    (h0 : 0 ≤ u) :
    categoricalSample (List.replicate k (0 : ℚ) ++ rest) u =
      k + categoricalSample rest u := by
  induction k with
  | zero => simp
  | succ n ih =>
    rw [List.replicate_succ, List.cons_append, categoricalSample,
      if_neg (not_lt.mpr h0), sub_zero, ih]
    omega

theorem set_replicate_eq (n k : Nat) (h : k < n) :
    (List.replicate n (0 : ℚ)).set k 1 =
      List.replicate k 0 ++ 1 :: List.replicate (n - k - 1) 0 := by
  induction n generalizing k with
  | zero => exact absurd h (Nat.not_lt_zero k)
  | succ n ih =>
    cases k with
    | zero => simp [List.replicate_succ]
    | succ k =>
      rw [List.replicate_succ, List.set_cons_succ,
        ih k (Nat.lt_of_succ_lt_succ h)]
      have hs : n + 1 - (k + 1) - 1 = n - k - 1 := by omega
      rw [hs]
      rfl

theorem catSample_oneHot (n k : Nat) (h : k < n) (u : ℚ) (h0 : 0 ≤ u)
    (h1 : u < 1) :
    categoricalSample ((List.replicate n (0 : ℚ)).set k 1) u = k := by
  rw [set_replicate_eq n k h, catSample_replicate_zero k _ u h0,
    categoricalSample, if_pos h1]
  omega

theorem fd_row_eq (t : List (List Nat)) (s a : Nat)
    (hs : s < t.length) (ha : a < (t.headD []).length) :
    (((List.range t.length).map fun s2 =>
        (List.range (t.headD []).length).map fun a2 =>
          (List.replicate t.length (0 : ℚ)).set
            ((t.getD s2 []).getD a2 0) 1).getD s []).getD a [] =
      (List.replicate t.length (0 : ℚ)).set ((t.getD s []).getD a 0) 1 := by
  have houter : ((List.range t.length).map fun s2 =>
      (List.range (t.headD []).length).map fun a2 =>
        (List.replicate t.length (0 : ℚ)).set
          ((t.getD s2 []).getD a2 0) 1).getD s [] =
      (List.range (t.headD []).length).map fun a2 =>
        (List.replicate t.length (0 : ℚ)).set ((t.getD s []).getD a2 0) 1 := by
    rw [List.getD_eq_getElem _ _ (by simpa using hs)]
    simp
  rw [houter, List.getD_eq_getElem _ _ (by simpa using ha)]
  simp

/-- Claim C4: `from_deterministic` produces a stochastic model whose row at
every in-range (state, action) is one-hot at the deterministic target
(probability 1 there, 0 elsewhere), with reward and terminal carried over;
consequently a step of the converted model from the same state and action,
under any uniform draw in [0,1), reaches the deterministic model's next
state with identical reward. -/
theorem C4_from_det_preserves (m : Model) (t : List (List Nat))
    (hk : m.kind = .det) (ht : m.transition = .det t)
    (hterm : m.terminal ≠ [])
    (s a : Nat) (hs : s < t.length) (ha : a < (t.headD []).length)
    (hrange : (t.getD s []).getD a 0 < t.length)
    (u : ℚ) (h0 : 0 ≤ u) (h1 : u < 1) :
    (∃ ts, (StochasticMDP.from_deterministic m).transition = .stoch ts ∧
      (ts.getD s []).getD a [] =
        (List.replicate t.length (0 : ℚ)).set ((t.getD s []).getD a 0) 1 ∧
      ∀ j, j < t.length →
        ((ts.getD s []).getD a []).getD j 0 =
          if j = (t.getD s []).getD a 0 then 1 else 0) ∧
    (StochasticMDP.from_deterministic m).reward = m.reward ∧
    (StochasticMDP.from_deterministic m).terminal = m.terminal ∧
    (({ StochasticMDP.from_deterministic m with state := s }).step a u).1 =
      (({ m with state := s }).step a u).1 ∧
    (({ StochasticMDP.from_deterministic m with state := s }).step a u).2.1 =
      (({ m with state := s }).step a u).2.1 := by
  obtain ⟨k, st, tr, r, te⟩ := m
  cases k with
  | stoch => exact MKind.noConfusion hk
  | det =>
    have ht' : tr = .det t := ht
    subst ht'
    cases te with
    | nil => exact absurd rfl hterm
    | cons x te' =>
      refine ⟨⟨_, rfl, fd_row_eq t s a hs ha, ?_⟩, rfl, rfl, ?_, rfl⟩
      · intro j hj
        rw [fd_row_eq t s a hs ha]
        have hlen2 : j < ((List.replicate t.length (0 : ℚ)).set
            ((t.getD s []).getD a 0) 1).length := by simpa using hj
        rw [List.getD_eq_getElem _ _ hlen2, List.getElem_set]
        split
        · rename_i heq
          rw [if_pos heq.symm]
        · rename_i hne
          rw [List.getElem_replicate, if_neg (fun hh => hne hh.symm)]
      · show categoricalSample
          ((((List.range t.length).map fun s2 =>
            (List.range (t.headD []).length).map fun a2 =>
              (List.replicate t.length (0 : ℚ)).set
                ((t.getD s2 []).getD a2 0) 1).getD s []).getD a []) u =
          (t.getD s []).getD a 0
        rw [fd_row_eq t s a hs ha]
        exact catSample_oneHot t.length _ hrange u h0 h1

/-- Witness for C4: on the scenario model, the converted stochastic model
stepped from state 0 with draw 1/2 reaches the same next state. -/
theorem C4_from_det_preserves_witness :
    ((({ StochasticMDP.from_deterministic scenarioModel with
        state := 0 }).step 0 (1 / 2)).1 =
      (({ scenarioModel with state := 0 }).step 0 (1 / 2)).1) :=
  (C4_from_det_preserves scenarioModel [[1], [0]] rfl rfl (by decide) 0 0
    (by decide) (by decide) (by decide) (1 / 2) (by norm_num)
    (by norm_num)).2.2.2.1

/-- Claim C9: for both variants, `randomize` overwrites the transition and
reward tables shape-preservingly (for rectangular tables: same first-axis
length, all rows of the original uniform width); in the deterministic
variant the fresh transition entries lie in [0, S) with S the size of the
transition table's first axis, and the fresh rewards lie in [0, 1). -/
theorem C9_randomize_shapes (m : Model) (rng : RNG) :
    (∀ t, m.kind = .det → m.transition = .det t →
      (∀ row ∈ t, row.length = (t.headD []).length) → 0 < t.length →
      ∃ t2, (m.randomize rng).transition = .det t2 ∧
        t2.length = t.length ∧
        (∀ row ∈ t2, row.length = (t.headD []).length) ∧
        (∀ row ∈ t2, ∀ x ∈ row, x < t.length) ∧
        (m.randomize rng).reward.length = m.reward.length ∧
        (∀ row ∈ (m.randomize rng).reward,
          row.length = (m.reward.headD []).length) ∧
        (∀ row ∈ (m.randomize rng).reward, ∀ x ∈ row, 0 ≤ x ∧ x < 1)) ∧
    (∀ t, m.kind = .stoch → m.transition = .stoch t →
      (∀ row ∈ t, row.length = (t.headD []).length) →
      ∃ t2, (m.randomize rng).transition = .stoch t2 ∧
        t2.length = t.length ∧
        (∀ row ∈ t2, row.length = (t.headD []).length) ∧
        (∀ row ∈ t2, ∀ cell ∈ row,
          cell.length = ((t.headD []).headD []).length) ∧
        (m.randomize rng).reward.length = m.reward.length ∧
        (∀ row ∈ (m.randomize rng).reward,
          row.length = (m.reward.headD []).length)) := by
  obtain ⟨k, st, tr, r, te⟩ := m
  constructor
  · intro t hk ht _ hS
    cases k with
    | stoch => exact MKind.noConfusion hk
    | det =>
      have ht' : tr = .det t := ht
      subst ht'
      exact ⟨rng.choice2 t.length t.length (t.headD []).length, rfl,
        rng.choice2_len _ _ _, rng.choice2_rows _ _ _,
        rng.choice2_mem _ _ _ hS, rng.rand2_len _ _,
        rng.rand2_rows _ _, rng.rand2_mem _ _⟩
  · intro t hk ht _
    cases k with
    | det => exact MKind.noConfusion hk
    | stoch =>
      have ht' : tr = .stoch t := ht
      subst ht'
      exact ⟨rng.rand3 t.length (t.headD []).length
          ((t.headD []).headD []).length, rfl,
        rng.rand3_len _ _ _, rng.rand3_rows _ _ _,
        rng.rand3_inner _ _ _, rng.rand2_len _ _, rng.rand2_rows _ _⟩

/-- Witness for C9: randomizing the scenario model keeps two states on the
first axis of the transition table. -/
theorem C9_randomize_shapes_witness :
    (scenarioModel.randomize constRNG).transition.numStates = 2 := by
  obtain ⟨t2, ht2, hlen, -⟩ :=
    (C9_randomize_shapes scenarioModel constRNG).1 [[1], [0]] rfl rfl
      (by decide) (by decide)
  rw [ht2]
  show t2.length = 2
  rw [hlen]
  rfl
